import Mathlib

/-!
Verification development for the Zensai journaling application.

The development shallowly embeds the two core subsystems of the repository:

* the entitlement gate (`usePremium` hooks: daily usage limits stored in
  `localStorage` under keys derived from `new Date().toISOString()`), and
* the badge/streak engine (`check_and_award_badges` PL/pgSQL function and the
  streak-update rules).

JavaScript numbers that can be `NaN` are modelled as `Option Int` (with `none`
for `NaN`); `localStorage` is modelled as a partial map from `String` to
`String`; `parseInt(s, 10)` and `Number.prototype.toString` are modelled by
`jsParseInt` and `natToString` below.
-/

namespace Zensai

/-- Decimal digit character for a digit value below ten (code 48 is zero). -/
def digitChar (d : Nat) : Char := Char.ofNat (48 + d)

/-- Fuel-bounded big-endian decimal rendering of a natural number.
The fuel argument only serves to make the recursion structural. -/
def natToCharsAux : Nat → Nat → List Char
  | 0, _ => []
  | fuel + 1, n =>
    if n < 10 then [digitChar n]
    else natToCharsAux fuel (n / 10) ++ [digitChar (n % 10)]

/-- Model of JavaScript `(n).toString()` for a non-negative number:
decimal rendering without leading zeros, `"0"` for zero. -/
def natToString (n : Nat) : String := String.mk (natToCharsAux (n + 1) n)

/-- Model of JavaScript `(v).toString()` for an integer. -/
def jsIntToString (v : Int) : String :=
  if v < 0 then "-" ++ natToString v.natAbs else natToString v.toNat

/-- Model of `(x).toString()` on a JavaScript number that may be `NaN`
(`NaN` renders as the string `"NaN"`). -/
def jsNumToString : Option Int → String
  | none => "NaN"
  | some v => jsIntToString v

/-- Numeric value of a decimal digit character, `none` for non-digits. -/
def digitVal? (c : Char) : Option Nat :=
  if 48 ≤ c.toNat ∧ c.toNat ≤ 57 then some (c.toNat - 48) else none

/-- The longest run of leading decimal digits of a character list. -/
def takeDigitVals : List Char → List Nat
  | [] => []
  | c :: cs =>
    match digitVal? c with
    | some d => d :: takeDigitVals cs
    | none => []

/-- Value of a big-endian digit list. -/
def valBE (ds : List Nat) : Nat := ds.foldl (fun a d => a * 10 + d) 0

/-- Parse the leading digit run of a character list; `none` when it is empty. -/
def parseLeadingDigits (cs : List Char) : Option Nat :=
  match takeDigitVals cs with
  | [] => none
  | d :: ds => some (valBE (d :: ds))

/-- Model of JavaScript `parseInt(s, 10)`: skip leading whitespace, read an
optional sign, then the longest leading digit run; `none` models `NaN`
(no digits at all). Trailing garbage is ignored, as in JavaScript. -/
def jsParseInt (s : String) : Option Int :=
  match s.data.dropWhile Char.isWhitespace with
  | [] => none
  | c :: rest =>
    if c = '-' then (parseLeadingDigits rest).map (fun v => -(v : Int))
    else if c = '+' then (parseLeadingDigits rest).map (fun v => (v : Int))
    else (parseLeadingDigits (c :: rest)).map (fun v => (v : Int))

lemma digitVal_digitChar : ∀ d, d < 10 → digitVal? (digitChar d) = some d := by decide

lemma digitChar_not_ws : ∀ d, d < 10 → (digitChar d).isWhitespace = false := by decide

lemma digitChar_ne_neg : ∀ d, d < 10 → digitChar d ≠ '-' := by decide

lemma digitChar_ne_pos : ∀ d, d < 10 → digitChar d ≠ '+' := by decide

lemma takeDigitVals_map (ds : List Nat) (h : ∀ d ∈ ds, d < 10) :
    takeDigitVals (ds.map digitChar) = ds := by
  induction ds with
  | nil => rfl
  | cons d ds ih =>
    simp only [List.map_cons, takeDigitVals, digitVal_digitChar d (h d (by simp))]
    rw [ih (fun x hx => h x (by simp [hx]))]

lemma foldl_digits_reverse (l : List Nat) (a : Nat) :
    l.reverse.foldl (fun x d => x * 10 + d) a = a * 10 ^ l.length + Nat.ofDigits 10 l := by
  induction l generalizing a with
  | nil => simp
  | cons d ds ih =>
    simp only [List.reverse_cons, List.foldl_append, List.foldl_cons, List.foldl_nil, ih,
      Nat.ofDigits_cons, List.length_cons, pow_succ]
    ring

lemma valBE_reverse_digits (n : Nat) :
    valBE ((Nat.digits 10 n).reverse) = n := by
  unfold valBE
  rw [foldl_digits_reverse, Nat.ofDigits_digits]
  simp

lemma natToCharsAux_eq (n : Nat) :
    ∀ fuel, 0 < n → n < fuel →
      natToCharsAux fuel n = (Nat.digits 10 n).reverse.map digitChar := by
  induction n using Nat.strong_induction_on with
  | _ n ih =>
    intro fuel hpos hlt
    match fuel with
    | 0 => omega
    | f + 1 =>
      by_cases h10 : n < 10
      · rw [natToCharsAux, if_pos h10, Nat.digits_of_lt 10 n (by omega) h10]
        simp
      · rw [natToCharsAux, if_neg h10,
          ih (n / 10) (Nat.div_lt_self hpos (by omega)) f (by omega) (by omega),
          Nat.digits_def' (by norm_num : 1 < 10) hpos]
        simp

lemma natToCharsAux_ne_nil (fuel n : Nat) : natToCharsAux (fuel + 1) n ≠ [] := by
  rw [natToCharsAux]
  split <;> simp

lemma natToString_ne_empty (n : Nat) : natToString n ≠ "" := by
  intro h
  have : natToCharsAux (n + 1) n = [] := congrArg String.data h
  exact natToCharsAux_ne_nil n n this

/-- Parsing is a left inverse of decimal rendering on naturals. -/
theorem jsParseInt_natToString (n : Nat) : jsParseInt (natToString n) = some (n : Int) := by
  by_cases hn : n = 0
  · subst hn; decide
  · have hpos : 0 < n := Nat.pos_of_ne_zero hn
    have hdig : ∀ d ∈ (Nat.digits 10 n).reverse, d < 10 := by
      intro d hd
      exact Nat.digits_lt_base (by norm_num) (List.mem_reverse.mp hd)
    have hrepr : natToString n = String.mk ((Nat.digits 10 n).reverse.map digitChar) := by
      unfold natToString
      rw [natToCharsAux_eq n (n + 1) hpos (by omega)]
    rw [hrepr, jsParseInt]
    have hne : (Nat.digits 10 n).reverse ≠ [] := by
      simp [Nat.digits_ne_nil_iff_ne_zero, hn]
    match hds : (Nat.digits 10 n).reverse with
    | [] => exact absurd hds hne
    | d :: ds =>
      have hd10 : d < 10 := hdig d (by rw [hds]; simp)
      have hall : ∀ x ∈ d :: ds, x < 10 := by rw [← hds]; exact hdig
      simp only [List.map_cons]
      rw [List.dropWhile_cons_of_neg (by simp [digitChar_not_ws d hd10])]
      simp only [if_neg (digitChar_ne_neg d hd10), if_neg (digitChar_ne_pos d hd10)]
      have : takeDigitVals (digitChar d :: ds.map digitChar) = d :: ds := by
        have := takeDigitVals_map (d :: ds) hall
        simpa using this
      rw [parseLeadingDigits, this]
      have hval : valBE (d :: ds) = n := by
        rw [← hds]; exact valBE_reverse_digits n
      simp [hval]

lemma natToString_inj {m n : Nat} (h : natToString m = natToString n) : m = n := by
  have := jsParseInt_natToString m
  rw [h, jsParseInt_natToString n] at this
  exact_mod_cast (Option.some_injective _ this).symm

/-! ## localStorage, wall-clock time, and the user profile -/

/-- Model of the browser `localStorage`: a partial map from keys to strings. -/
def Store := String → Option String

/-- Model of `localStorage.setItem(key, v)`. -/
def setItem (s : Store) (key v : String) : Store :=
  fun k => if k = key then some v else s k

/-- Model of the read `localStorage.getItem(key) || "0"`: a missing value
and the (falsy) empty string both yield the string `"0"`. -/
def getItemOr0 (s : Store) (key : String) : String :=
  match s key with
  | none => "0"
  | some v => if v = "" then "0" else v

/-- A wall-clock instant: minutes since the epoch in UTC, plus the device's
timezone offset from UTC in minutes. Calendar dates are tracked as day
numbers (days since the epoch); the `YYYY-MM-DD` component of an ISO string
corresponds bijectively to the UTC day number. -/
structure Time where
  utcMin : Nat
  tzOffsetMin : Int

/-- Day number of the date component of `new Date().toISOString()`: the
UTC calendar day (1440 minutes per day). -/
def utcDay (t : Time) : Nat := t.utcMin / 1440

/-- Day number of the user's local calendar date at instant `t`. -/
def localDay (t : Time) : Int := ((t.utcMin : Int) + t.tzOffsetMin).fdiv 1440

/-- The profile fields read by the entitlement gate. -/
structure Profile where
  subscription_status : String
  subscription_tier : String

/-- Premium check of `usePremium`: the subscription_status field equals the
string `"premium"` (a missing profile behaves like a non-premium status). -/
def isPremium (p : Profile) : Bool := p.subscription_status = "premium"

/-- Comparison `x >= limit` on a JavaScript number that may be `NaN`: any comparison
with `NaN` is false. -/
def jsGe (x : Option Int) (limit : Int) : Bool :=
  match x with
  | none => false
  | some v => limit ≤ v

/-- Increment `x + 1` on a JavaScript number that may be `NaN` (`NaN + 1 = NaN`). -/
def jsAdd1 (x : Option Int) : Option Int := x.map (· + 1)

/-! ## Entitlement gate, older hook (`src/unnamed/part_003`) -/

/-- Model of `getDailyUsageLimit` (`part_003`): 2 for the four recognized rate-limited
feature keys, 1 for everything else. -/
def getDailyUsageLimit (featureType : String) : Int :=
  if featureType = "prompt" then 2
  else if featureType = "mood-analysis" then 2
  else if featureType = "affirmation" then 2
  else if featureType = "mood-quote" then 2
  else 1

/-- Storage key template `zensai-FEATURETYPE-usage-TODAY` where the date part is
the date component of `toISOString()`, rendered here via the UTC day number. -/
def usageKey3 (featureType : String) (t : Time) : String :=
  "zensai-" ++ featureType ++ "-usage-" ++ natToString (utcDay t)

/-- The read `parseInt(localStorage.getItem(storageKey) || "0", 10)` of the older hook. -/
def currentUsage3 (s : Store) (featureType : String) (t : Time) : Option Int :=
  jsParseInt (getItemOr0 s (usageKey3 featureType t))

/-- Model of `hasReachedDailyLimit` (`part_003`). -/
def hasReachedDailyLimit (p : Profile) (featureType : String) (s : Store) (t : Time) : Bool :=
  if isPremium p then false
  else jsGe (currentUsage3 s featureType t) (getDailyUsageLimit featureType)

/-- Model of `incrementUsageCounter` (`part_003`): writes `(currentUsage + 1).toString()`
under today's key; a no-op for premium users. -/
def incrementUsageCounter (p : Profile) (featureType : String) (s : Store) (t : Time) : Store :=
  if isPremium p then s
  else setItem s (usageKey3 featureType t)
    (jsNumToString (jsAdd1 (currentUsage3 s featureType t)))

/-- Result type of `getRemainingUses`: a JavaScript number that can be
`Infinity` (premium) or `NaN` (corrupted counter). -/
inductive JsNum where
  | nan : JsNum
  | posInf : JsNum
  | num : Int → JsNum
deriving DecidableEq

/-- Model of `getRemainingUses` (`part_003`): `Infinity` for premium users, otherwise
`Math.max(0, limit - currentUsage)` (which is `NaN` when the counter is `NaN`). -/
def getRemainingUses (p : Profile) (featureType : String) (s : Store) (t : Time) : JsNum :=
  if isPremium p then .posInf
  else
    match currentUsage3 s featureType t with
    | none => .nan
    | some v => .num (max 0 (getDailyUsageLimit featureType - v))

/-! ## Entitlement gate, current hook (`src/src/hooks/usePremium.ts`) -/

/-- Storage key template `zensai-feature-FEATUREKEY-TODAY` of `trackFeatureUsage`. -/
def featureKeyNew (featureKey : String) (t : Time) : String :=
  "zensai-feature-" ++ featureKey ++ "-" ++ natToString (utcDay t)

/-- Model of `trackFeatureUsage(featureKey, limit)` (`usePremium.ts`, default limit 2):
premium users always pass with no write; otherwise read today's counter, deny
without writing when `currentUsage >= limit`, else increment and pass.
Returns the pass/deny flag and the resulting store. -/
def trackFeatureUsage (p : Profile) (featureKey : String) (limit : Int) (s : Store)
    (t : Time) : Bool × Store :=
  if isPremium p then (true, s)
  else
    let cur := jsParseInt (getItemOr0 s (featureKeyNew featureKey t))
    if jsGe cur limit then (false, s)
    else (true, setItem s (featureKeyNew featureKey t) (jsNumToString (jsAdd1 cur)))

/-! ## Basic counter lemmas -/

lemma counter_absent {s : Store} {key : String} (h : s key = none) :
    jsParseInt (getItemOr0 s key) = some 0 := by
  have : getItemOr0 s key = "0" := by simp [getItemOr0, h]
  rw [this]
  decide

lemma jsNumToString_coe (n : Nat) : jsNumToString (some (n : Int)) = natToString n := by
  simp only [jsNumToString, jsIntToString]
  rw [if_neg (by simp)]
  simp

lemma counter_write_read (s : Store) (key : String) (n : Nat) :
    jsParseInt (getItemOr0 (setItem s key (jsNumToString (some (n : Int)))) key) =
      some (n : Int) := by
  rw [jsNumToString_coe]
  have h1 : getItemOr0 (setItem s key (natToString n)) key = natToString n := by
    simp [getItemOr0, setItem, natToString_ne_empty n]
  rw [h1, jsParseInt_natToString]

lemma setItem_frame (s : Store) (key v : String) {k : String} (h : k ≠ key) :
    setItem s key v k = s k := by
  simp [setItem, h]

lemma getDailyUsageLimit_pos (ft : String) : 1 ≤ getDailyUsageLimit ft := by
  unfold getDailyUsageLimit
  split_ifs <;> norm_num

lemma hasReached_free {p : Profile} (hfree : isPremium p = false) {ft : String}
    {s : Store} {t : Time} {v : Int} (hv : currentUsage3 s ft t = some v) :
    hasReachedDailyLimit p ft s t = decide (getDailyUsageLimit ft ≤ v) := by
  simp [hasReachedDailyLimit, hfree, hv, jsGe]

lemma increment_free {p : Profile} (hfree : isPremium p = false) {ft : String}
    {s : Store} {t : Time} {v : Int} (hv : currentUsage3 s ft t = some v) :
    incrementUsageCounter p ft s t =
      setItem s (usageKey3 ft t) (jsNumToString (some (v + 1))) := by
  simp [incrementUsageCounter, hfree, hv, jsAdd1]

lemma trackFeatureUsage_free {p : Profile} (hfree : isPremium p = false)
    (k : String) (limit : Int) (s : Store) (t : Time) {v : Int}
    (hv : jsParseInt (getItemOr0 s (featureKeyNew k t)) = some v) :
    trackFeatureUsage p k limit s t =
      if limit ≤ v then (false, s)
      else (true, setItem s (featureKeyNew k t) (jsNumToString (some (v + 1)))) := by
  by_cases h : limit ≤ v <;>
    simp [trackFeatureUsage, hfree, hv, jsGe, jsAdd1, h]

/-! ## Claims about the entitlement gate -/

/-- C1: for a free user and a feature with daily limit 2, the first two
permission checks on the same day (each followed by recording the use, which
`trackFeatureUsage` performs in one call) pass, the third check that day is
denied, and `getRemainingUses` then reports 0. Stated both for the older
hook's check/record/remaining trio and for `trackFeatureUsage`. -/
theorem C1_free_user_daily_limit (p : Profile) (ft : String) (s0 : Store) (t : Time)
    (hfree : isPremium p = false)
    (hlim : getDailyUsageLimit ft = 2)
    (h0 : s0 (usageKey3 ft t) = none)
    (h0' : s0 (featureKeyNew ft t) = none) :
    hasReachedDailyLimit p ft s0 t = false ∧
    hasReachedDailyLimit p ft (incrementUsageCounter p ft s0 t) t = false ∧
    hasReachedDailyLimit p ft
      (incrementUsageCounter p ft (incrementUsageCounter p ft s0 t) t) t = true ∧
    getRemainingUses p ft
      (incrementUsageCounter p ft (incrementUsageCounter p ft s0 t) t) t = .num 0 ∧
    (trackFeatureUsage p ft 2 s0 t).1 = true ∧
    (trackFeatureUsage p ft 2 (trackFeatureUsage p ft 2 s0 t).2 t).1 = true ∧
    (trackFeatureUsage p ft 2
      (trackFeatureUsage p ft 2 (trackFeatureUsage p ft 2 s0 t).2 t).2 t).1 = false := by
  have c0 : currentUsage3 s0 ft t = some 0 := counter_absent h0
  have hs1 : incrementUsageCounter p ft s0 t =
      setItem s0 (usageKey3 ft t) (jsNumToString (some 1)) := by
    rw [increment_free hfree c0]; norm_num
  have c1 : currentUsage3 (incrementUsageCounter p ft s0 t) ft t = some 1 := by
    rw [hs1]
    have := counter_write_read s0 (usageKey3 ft t) 1
    simpa [currentUsage3] using this
  have hs2 : incrementUsageCounter p ft (incrementUsageCounter p ft s0 t) t =
      setItem (incrementUsageCounter p ft s0 t) (usageKey3 ft t) (jsNumToString (some 2)) := by
    rw [increment_free hfree c1]; norm_num
  have c2 : currentUsage3
      (incrementUsageCounter p ft (incrementUsageCounter p ft s0 t) t) ft t = some 2 := by
    rw [hs2]
    have := counter_write_read (incrementUsageCounter p ft s0 t) (usageKey3 ft t) 2
    simpa [currentUsage3] using this
  have d0 : jsParseInt (getItemOr0 s0 (featureKeyNew ft t)) = some 0 := counter_absent h0'
  have ht1 : trackFeatureUsage p ft 2 s0 t =
      (true, setItem s0 (featureKeyNew ft t) (jsNumToString (some 1))) := by
    rw [trackFeatureUsage_free hfree ft 2 s0 t d0, if_neg (by norm_num)]
    norm_num
  have d1 : jsParseInt (getItemOr0 (trackFeatureUsage p ft 2 s0 t).2 (featureKeyNew ft t)) =
      some 1 := by
    rw [ht1]
    have := counter_write_read s0 (featureKeyNew ft t) 1
    simpa using this
  have ht2 : trackFeatureUsage p ft 2 (trackFeatureUsage p ft 2 s0 t).2 t =
      (true, setItem (trackFeatureUsage p ft 2 s0 t).2 (featureKeyNew ft t)
        (jsNumToString (some 2))) := by
    rw [trackFeatureUsage_free hfree ft 2 _ t d1, if_neg (by norm_num)]
    norm_num
  have d2 : jsParseInt (getItemOr0 (trackFeatureUsage p ft 2 (trackFeatureUsage p ft 2 s0 t).2 t).2
      (featureKeyNew ft t)) = some 2 := by
    rw [ht2]
    have := counter_write_read (trackFeatureUsage p ft 2 s0 t).2 (featureKeyNew ft t) 2
    simpa using this
  refine ⟨?_, ?_, ?_, ?_, ?_, ?_, ?_⟩
  · rw [hasReached_free hfree c0, hlim]; decide
  · rw [hasReached_free hfree c1, hlim]; decide
  · rw [hasReached_free hfree c2, hlim]; decide
  · simp [getRemainingUses, hfree, c2, hlim]
  · rw [ht1]
  · rw [ht2]
  · rw [trackFeatureUsage_free hfree ft 2 _ t d2, if_pos (by norm_num)]

theorem C1_free_user_daily_limit_witness :
    (isPremium ⟨"free", "free"⟩ = false ∧ getDailyUsageLimit "prompt" = 2 ∧
      (fun _ => none : Store) (usageKey3 "prompt" ⟨0, 0⟩) = none ∧
      (fun _ => none : Store) (featureKeyNew "prompt" ⟨0, 0⟩) = none) ∧
    (trackFeatureUsage ⟨"free", "free"⟩ "prompt" 2 (fun _ => none) ⟨0, 0⟩).1 = true :=
  ⟨⟨by decide, by decide, rfl, rfl⟩,
    (C1_free_user_daily_limit ⟨"free", "free"⟩ "prompt" (fun _ => none) ⟨0, 0⟩
      (by decide) (by decide) rfl rfl).2.2.2.2.1⟩

/-- C2: for every premium user and feature key, the usage check always passes
whatever the stored counter holds, remaining uses are unbounded (`Infinity`),
and recording a use never writes the counter store. -/
theorem C2_premium_unlimited (p : Profile) (hp : p.subscription_status = "premium")
    (featureType featureKey : String) (s : Store) (t : Time) (limit : Int) :
    hasReachedDailyLimit p featureType s t = false ∧
    getRemainingUses p featureType s t = JsNum.posInf ∧
    incrementUsageCounter p featureType s t = s ∧
    trackFeatureUsage p featureKey limit s t = (true, s) := by
  have hprem : isPremium p = true := by simp [isPremium, hp]
  refine ⟨?_, ?_, ?_, ?_⟩ <;>
    simp [hasReachedDailyLimit, getRemainingUses, incrementUsageCounter,
      trackFeatureUsage, hprem]

theorem C2_premium_unlimited_witness :
    (Profile.subscription_status ⟨"premium", "premium"⟩ = "premium") ∧
    trackFeatureUsage ⟨"premium", "premium"⟩ "prompt" 2 (fun _ => some "99") ⟨0, 0⟩ =
      (true, fun _ => some "99") :=
  ⟨by decide,
    (C2_premium_unlimited ⟨"premium", "premium"⟩ (by decide) "prompt" "prompt"
      (fun _ => some "99") ⟨0, 0⟩ 2).2.2.2⟩

/-- C7: `getDailyUsageLimit` returns 2 for each of the four recognized
rate-limited feature keys and 1 for every other key. -/
theorem C7_daily_limit_lookup :
    getDailyUsageLimit "prompt" = 2 ∧ getDailyUsageLimit "mood-analysis" = 2 ∧
    getDailyUsageLimit "affirmation" = 2 ∧ getDailyUsageLimit "mood-quote" = 2 ∧
    ∀ k, k ≠ "prompt" → k ≠ "mood-analysis" → k ≠ "affirmation" → k ≠ "mood-quote" →
      getDailyUsageLimit k = 1 := by
  refine ⟨rfl, rfl, rfl, rfl, ?_⟩
  intro k h1 h2 h3 h4
  simp [getDailyUsageLimit, h1, h2, h3, h4]

theorem C7_daily_limit_lookup_witness :
    ("mystery" ≠ "prompt" ∧ "mystery" ≠ "mood-analysis" ∧ "mystery" ≠ "affirmation" ∧
      "mystery" ≠ "mood-quote") ∧ getDailyUsageLimit "mystery" = 1 :=
  ⟨by decide,
    C7_daily_limit_lookup.2.2.2.2 "mystery" (by decide) (by decide) (by decide) (by decide)⟩

/-- C8: when the counter store yields no value for today's key the gate reads
the count as 0, and when it yields an unreadable value (`parseInt` gives
`NaN`) the comparison against the limit is false; in both cases a free user's
check passes, i.e. the gate fails open on counter unavailability. -/
theorem C8_gate_fails_open (p : Profile) (ft k : String) (s : Store) (t : Time)
    (hfree : isPremium p = false) :
    (s (usageKey3 ft t) = none →
      currentUsage3 s ft t = some 0 ∧ hasReachedDailyLimit p ft s t = false) ∧
    (currentUsage3 s ft t = none → hasReachedDailyLimit p ft s t = false) ∧
    (s (featureKeyNew k t) = none → (trackFeatureUsage p k 2 s t).1 = true) ∧
    (jsParseInt (getItemOr0 s (featureKeyNew k t)) = none →
      ∀ limit, (trackFeatureUsage p k limit s t).1 = true) := by
  have hpos := getDailyUsageLimit_pos ft
  refine ⟨?_, ?_, ?_, ?_⟩
  · intro h
    have c0 : currentUsage3 s ft t = some 0 := counter_absent h
    refine ⟨c0, ?_⟩
    rw [hasReached_free hfree c0]
    simp
    omega
  · intro h
    simp [hasReachedDailyLimit, hfree, h, jsGe]
  · intro h
    have d0 : jsParseInt (getItemOr0 s (featureKeyNew k t)) = some 0 := counter_absent h
    rw [trackFeatureUsage_free hfree k 2 s t d0, if_neg (by norm_num)]
  · intro h limit
    simp [trackFeatureUsage, hfree, h, jsGe]

theorem C8_gate_fails_open_witness :
    isPremium ⟨"free", "free"⟩ = false ∧
    ((fun _ => some "garbage" : Store) (usageKey3 "prompt" ⟨0, 0⟩) = none →
      currentUsage3 (fun _ => some "garbage") "prompt" ⟨0, 0⟩ = some 0 ∧
      hasReachedDailyLimit ⟨"free", "free"⟩ "prompt" (fun _ => some "garbage") ⟨0, 0⟩ = false) ∧
    (currentUsage3 (fun _ => some "garbage") "prompt" ⟨0, 0⟩ = none →
      hasReachedDailyLimit ⟨"free", "free"⟩ "prompt" (fun _ => some "garbage") ⟨0, 0⟩ = false) ∧
    ((fun _ => some "garbage" : Store) (featureKeyNew "x" ⟨0, 0⟩) = none →
      (trackFeatureUsage ⟨"free", "free"⟩ "x" 2 (fun _ => some "garbage") ⟨0, 0⟩).1 = true) ∧
    (jsParseInt (getItemOr0 (fun _ => some "garbage") (featureKeyNew "x" ⟨0, 0⟩)) = none →
      ∀ limit,
        (trackFeatureUsage ⟨"free", "free"⟩ "x" limit (fun _ => some "garbage") ⟨0, 0⟩).1 = true) :=
  ⟨by decide,
    C8_gate_fails_open ⟨"free", "free"⟩ "prompt" "x" (fun _ => some "garbage") ⟨0, 0⟩ (by decide)⟩

/-! ## C9: the counter never exceeds the limit -/

/-- Iteration: `N` successive calls of `trackFeatureUsage` for the same user, feature
key, limit and instant, threading the store through. -/
def trackIter (p : Profile) (k : String) (limit : Int) (t : Time) : Nat → Store → Store
  | 0, s => s
  | n + 1, s => trackIter p k limit t n (trackFeatureUsage p k limit s t).2

lemma track_preserves_bound {p : Profile} (hfree : isPremium p = false)
    {k : String} {limit : Int} {t : Time} {s : Store} {m : Nat}
    (hm : jsParseInt (getItemOr0 s (featureKeyNew k t)) = some (m : Int))
    (hle : (m : Int) ≤ limit) :
    ∃ m' : Nat,
      jsParseInt (getItemOr0 ((trackFeatureUsage p k limit s t).2) (featureKeyNew k t)) =
        some (m' : Int) ∧ (m' : Int) ≤ limit := by
  by_cases h : limit ≤ (m : Int)
  · refine ⟨m, ?_, hle⟩
    rw [trackFeatureUsage_free hfree k limit s t hm, if_pos h]
    exact hm
  · refine ⟨m + 1, ?_, by push_cast; omega⟩
    rw [trackFeatureUsage_free hfree k limit s t hm, if_neg h]
    have : ((m : Int) + 1) = ((m + 1 : Nat) : Int) := by push_cast; ring
    rw [this]
    exact counter_write_read s (featureKeyNew k t) (m + 1)

lemma trackIter_bound {p : Profile} (hfree : isPremium p = false)
    (k : String) (limit : Int) (t : Time) (N : Nat) :
    ∀ s : Store,
      (∃ m : Nat, jsParseInt (getItemOr0 s (featureKeyNew k t)) = some (m : Int) ∧
        (m : Int) ≤ limit) →
      ∃ m : Nat,
        jsParseInt (getItemOr0 (trackIter p k limit t N s) (featureKeyNew k t)) =
          some (m : Int) ∧ (m : Int) ≤ limit := by
  induction N with
  | zero => intro s hs; exact hs
  | succ n ih =>
    intro s hs
    obtain ⟨m, hm, hle⟩ := hs
    exact ih _ (track_preserves_bound hfree hm hle)

/-- C9 (implicit): for a free user, feature key and day, starting from a
day whose counter has not been created yet, any number of `trackFeatureUsage`
calls keeps the stored counter at most the limit; moreover a call that
returns `true` increments the counter by exactly one and a call that returns
`false` leaves the store unchanged (the check and the increment happen in the
same call). -/
theorem C9_counter_at_most_limit (p : Profile) (k : String) (limit : Int) (t : Time)
    (hfree : isPremium p = false) (hlim : 0 ≤ limit) :
    (∀ s0 : Store, s0 (featureKeyNew k t) = none →
      ∀ N, ∃ m : Nat,
        jsParseInt (getItemOr0 (trackIter p k limit t N s0) (featureKeyNew k t)) =
          some (m : Int) ∧ (m : Int) ≤ limit) ∧
    (∀ (s : Store) (n : Int),
      jsParseInt (getItemOr0 s (featureKeyNew k t)) = some n → 0 ≤ n →
      ((trackFeatureUsage p k limit s t).1 = true →
        jsParseInt (getItemOr0 ((trackFeatureUsage p k limit s t).2) (featureKeyNew k t)) =
          some (n + 1)) ∧
      ((trackFeatureUsage p k limit s t).1 = false →
        (trackFeatureUsage p k limit s t).2 = s)) := by
  constructor
  · intro s0 h0 N
    refine trackIter_bound hfree k limit t N s0 ⟨0, ?_, by exact_mod_cast hlim⟩
    simpa using counter_absent h0
  · intro s n hn h0n
    by_cases h : limit ≤ n
    · rw [trackFeatureUsage_free hfree k limit s t hn, if_pos h]
      exact ⟨fun hcontra => by simp at hcontra, fun _ => rfl⟩
    · rw [trackFeatureUsage_free hfree k limit s t hn, if_neg h]
      refine ⟨fun _ => ?_, fun hcontra => by simp at hcontra⟩
      have hcast : (n + 1) = ((n.toNat + 1 : Nat) : Int) := by push_cast; omega
      rw [hcast]
      exact counter_write_read s (featureKeyNew k t) (n.toNat + 1)

theorem C9_counter_at_most_limit_witness :
    (isPremium ⟨"free", "free"⟩ = false ∧ (0 : Int) ≤ 2 ∧
      (fun _ => none : Store) (featureKeyNew "prompt" ⟨0, 0⟩) = none) ∧
    ∃ m : Nat,
      jsParseInt (getItemOr0 (trackIter ⟨"free", "free"⟩ "prompt" 2 ⟨0, 0⟩ 5 (fun _ => none))
        (featureKeyNew "prompt" ⟨0, 0⟩)) = some (m : Int) ∧ (m : Int) ≤ 2 :=
  ⟨⟨by decide, by decide, rfl⟩,
    (C9_counter_at_most_limit ⟨"free", "free"⟩ "prompt" 2 ⟨0, 0⟩ (by decide) (by decide)).1
      (fun _ => none) rfl 5⟩

/-! ## C6: the day key comes from `toISOString`, i.e. the UTC date -/

lemma append_natToString_inj (pre : String) {a b : Nat}
    (h : pre ++ natToString a = pre ++ natToString b) : a = b := by
  have hdata : (pre ++ natToString a).data = (pre ++ natToString b).data := congrArg _ h
  rw [String.data_append, String.data_append] at hdata
  have h2 : (natToString a).data = (natToString b).data := List.append_cancel_left hdata
  exact natToString_inj (String.ext h2)

lemma usageKey3_day_inj (ft : String) {t1 t2 : Time}
    (h : usageKey3 ft t1 = usageKey3 ft t2) : utcDay t1 = utcDay t2 :=
  append_natToString_inj ("zensai-" ++ ft ++ "-usage-") h

lemma featureKeyNew_day_inj (ft : String) {t1 t2 : Time}
    (h : featureKeyNew ft t1 = featureKeyNew ft t2) : utcDay t1 = utcDay t2 :=
  append_natToString_inj ("zensai-feature-" ++ ft ++ "-") h

/-- C6 counterexample: the usage-counter key is NOT the user's local calendar
date. At 23:59 UTC on epoch day 0 on a device in timezone UTC+1 the local
calendar day is already day 1, yet every read and write uses the key of UTC
day 0 (the date component of `toISOString()`). -/
theorem C6_counterexample_local_day :
    localDay ⟨1439, 60⟩ = 1 ∧
    usageKey3 "prompt" ⟨1439, 60⟩ = "zensai-prompt-usage-" ++ natToString 0 ∧
    usageKey3 "prompt" ⟨1439, 60⟩ ≠ "zensai-prompt-usage-" ++ natToString 1 ∧
    featureKeyNew "prompt" ⟨1439, 60⟩ = "zensai-feature-prompt-" ++ natToString 0 ∧
    featureKeyNew "prompt" ⟨1439, 60⟩ ≠ "zensai-feature-prompt-" ++ natToString 1 := by
  refine ⟨by decide, rfl, by decide, rfl, by decide⟩

/-- C6 (amended): the day key of every usage-counter read and write is the UTC
calendar date taken from `toISOString()`, rolling over at UTC midnight: on the
next UTC day the key differs from the previous day's key, an absent counter
for the new day reads as 0 (so a free user's check passes), and a write only
touches the current UTC day's key, leaving every other key — in particular all
prior days' counters — unchanged. -/
theorem C6_utc_day_rollover (p : Profile) (ft : String) (limit : Int) (s : Store)
    (t1 t2 : Time) (hfree : isPremium p = false)
    (hday : utcDay t2 = utcDay t1 + 1) :
    usageKey3 ft t2 ≠ usageKey3 ft t1 ∧
    featureKeyNew ft t2 ≠ featureKeyNew ft t1 ∧
    (s (usageKey3 ft t2) = none →
      currentUsage3 s ft t2 = some 0 ∧ hasReachedDailyLimit p ft s t2 = false) ∧
    (∀ k, k ≠ usageKey3 ft t2 → incrementUsageCounter p ft s t2 k = s k) ∧
    (∀ k, k ≠ featureKeyNew ft t2 → (trackFeatureUsage p ft limit s t2).2 k = s k) := by
  refine ⟨?_, ?_, ?_, ?_, ?_⟩
  · intro h
    have := usageKey3_day_inj ft h
    omega
  · intro h
    have := featureKeyNew_day_inj ft h
    omega
  · intro h
    have c0 : currentUsage3 s ft t2 = some 0 := counter_absent h
    refine ⟨c0, ?_⟩
    rw [hasReached_free hfree c0]
    have := getDailyUsageLimit_pos ft
    simp
    omega
  · intro k hk
    simp [incrementUsageCounter, hfree, setItem, hk]
  · intro k hk
    by_cases hg : jsGe (jsParseInt (getItemOr0 s (featureKeyNew ft t2))) limit
    · simp [trackFeatureUsage, hfree, hg]
    · simp [trackFeatureUsage, hfree, hg, setItem, hk]

theorem C6_utc_day_rollover_witness :
    (isPremium ⟨"free", "free"⟩ = false ∧ utcDay ⟨1440, 0⟩ = utcDay ⟨0, 0⟩ + 1) ∧
    usageKey3 "prompt" ⟨1440, 0⟩ ≠ usageKey3 "prompt" ⟨0, 0⟩ :=
  ⟨⟨by decide, by decide⟩,
    (C6_utc_day_rollover ⟨"free", "free"⟩ "prompt" 2 (fun _ => none) ⟨0, 0⟩ ⟨1440, 0⟩
      (by decide) (by decide)).1⟩

/-! ## Mood analyzer wrapper (`useMoodAnalyzer`, `src/unnamed/part_000`) -/

/-- JavaScript `String.prototype.trim`: strip leading and trailing whitespace. -/
def jsTrim (s : String) : String :=
  String.mk (((s.data.dropWhile Char.isWhitespace).reverse.dropWhile Char.isWhitespace).reverse)

/-- JavaScript `String.prototype.toLowerCase` (over the basic alphabet). -/
def jsToLower (s : String) : String := String.mk (s.data.map Char.toLower)

/-- JavaScript `String.prototype.includes`: substring containment. -/
def jsIncludes (s sub : String) : Bool :=
  (List.range (s.data.length + 1)).any (fun i => sub.data.isPrefixOf (s.data.drop i))

/-- Model of `convertMoodStringToLevel` (`part_000`): direct matches on the five mood
labels, then synonym chains, defaulting to neutral (3). -/
def convertMoodStringToLevel (mood : String) : Nat :=
  let m := jsTrim (jsToLower mood)
  if m = "struggling" then 1
  else if m = "low" then 2
  else if m = "neutral" then 3
  else if m = "good" then 4
  else if m = "amazing" then 5
  else if jsIncludes m "depress" || jsIncludes m "despair" || jsIncludes m "hopeless" ||
      jsIncludes m "overwhelm" || jsIncludes m "anxious" || jsIncludes m "panic" ||
      jsIncludes m "stressed" || jsIncludes m "terrible" then 1
  else if jsIncludes m "sad" || jsIncludes m "down" || jsIncludes m "disappoint" ||
      jsIncludes m "melancholy" || jsIncludes m "blue" || jsIncludes m "upset" ||
      jsIncludes m "worried" || jsIncludes m "concern" then 2
  else if jsIncludes m "happy" || jsIncludes m "joy" || jsIncludes m "pleased" ||
      jsIncludes m "content" || jsIncludes m "satisfied" || jsIncludes m "positive" ||
      jsIncludes m "optimistic" || jsIncludes m "hopeful" || jsIncludes m "cheerful" ||
      jsIncludes m "upbeat" then 4
  else if jsIncludes m "ecstatic" || jsIncludes m "elated" || jsIncludes m "thrilled" ||
      jsIncludes m "euphoric" || jsIncludes m "fantastic" || jsIncludes m "wonderful" ||
      jsIncludes m "excellent" || jsIncludes m "brilliant" || jsIncludes m "incredible" ||
      jsIncludes m "overjoyed" then 5
  else 3

/-- Outcome of the `analyze-mood` edge-function invocation: the invocation
itself errored (or threw), it returned `success: false`, or it returned a
mood string. -/
inductive EdgeResult where
  | fnError : EdgeResult
  | unsuccessful : EdgeResult
  | success : String → EdgeResult

/-- Mood level produced from the edge result: `null` on a function error,
the neutral fallback 3 when the response is unsuccessful, otherwise the
converted mood string. -/
def edgeToMood : EdgeResult → Option Nat
  | .fnError => none
  | .unsuccessful => some 3
  | .success m => some (convertMoodStringToLevel m)

/-- Model of `analyzeMood` (`part_000`): reject blank entries; for free users
consume a daily use via `trackFeatureUsage("mood-analyzer")` (limit 2) before invoking
the edge function, denying with `null` when the limit is hit; then map the
edge outcome to a mood level. Returns the result and the final counter store.
UI-state setters (`setError`, `setIsAnalyzing`) are not modelled. -/
def analyzeMood (p : Profile) (s : Store) (t : Time) (journalEntry : String)
    (edge : EdgeResult) : Option Nat × Store :=
  if jsTrim journalEntry = "" then (none, s)
  else if isPremium p then (edgeToMood edge, s)
  else
    let r := trackFeatureUsage p "mood-analyzer" 2 s t
    if r.1 then (edgeToMood edge, r.2) else (none, r.2)

/-- C10 (implicit): a free user's daily use is consumed at the entitlement
check, before the edge function runs: when `trackFeatureUsage` passes and the
edge call then fails (function error → `null`, unsuccessful response → the
neutral fallback 3), the incremented counter store is retained unchanged. -/
theorem C10_failed_analysis_consumes_use (p : Profile) (s : Store) (t : Time)
    (entry : String) (n : Int)
    (hfree : isPremium p = false)
    (hne : jsTrim entry ≠ "")
    (hn : jsParseInt (getItemOr0 s (featureKeyNew "mood-analyzer" t)) = some n)
    (h0 : 0 ≤ n) (hlt : n < 2) :
    (trackFeatureUsage p "mood-analyzer" 2 s t).1 = true ∧
    analyzeMood p s t entry .fnError =
      (none, (trackFeatureUsage p "mood-analyzer" 2 s t).2) ∧
    analyzeMood p s t entry .unsuccessful =
      (some 3, (trackFeatureUsage p "mood-analyzer" 2 s t).2) ∧
    jsParseInt (getItemOr0 ((trackFeatureUsage p "mood-analyzer" 2 s t).2)
      (featureKeyNew "mood-analyzer" t)) = some (n + 1) := by
  have htrack : trackFeatureUsage p "mood-analyzer" 2 s t =
      (true, setItem s (featureKeyNew "mood-analyzer" t) (jsNumToString (some (n + 1)))) := by
    rw [trackFeatureUsage_free hfree "mood-analyzer" 2 s t hn, if_neg (by omega)]
  refine ⟨by rw [htrack], ?_, ?_, ?_⟩
  · simp [analyzeMood, hne, hfree, htrack, edgeToMood]
  · simp [analyzeMood, hne, hfree, htrack, edgeToMood]
  · rw [htrack]
    have hcast : (n + 1) = ((n.toNat + 1 : Nat) : Int) := by push_cast; omega
    rw [hcast]
    exact counter_write_read s (featureKeyNew "mood-analyzer" t) (n.toNat + 1)

theorem C10_failed_analysis_consumes_use_witness :
    (isPremium ⟨"free", "free"⟩ = false ∧ jsTrim "hello" ≠ "" ∧
      jsParseInt (getItemOr0 (fun _ => none) (featureKeyNew "mood-analyzer" ⟨0, 0⟩)) =
        some 0 ∧ (0 : Int) ≤ 0 ∧ (0 : Int) < 2) ∧
    (trackFeatureUsage ⟨"free", "free"⟩ "mood-analyzer" 2 (fun _ => none) ⟨0, 0⟩).1 = true :=
  ⟨⟨by decide, by decide, by decide, by decide, by decide⟩,
    (C10_failed_analysis_consumes_use ⟨"free", "free"⟩ (fun _ => none) ⟨0, 0⟩ "hello" 0
      (by decide) (by decide) (by decide) (by decide) (by decide)).1⟩

/-! ## Streak update on entry insert -/

/-- Streak fields of a profile, with dates as day numbers. -/
structure StreakState where
  current_streak : Nat
  best_streak : Nat
  last_entry_date : Option Nat
deriving DecidableEq

/-- Modelled from the spec: the server-side streak update run when a journal
entry is inserted. The SQL trigger implementing it is not among the
repository's source files — `useJournal.addEntry` only reloads the profile to
pick up the updated streak. Spec §4.2: no previous date → streak 1; same
day → unchanged; exactly the next day → streak + 1; gap of two or more
days → reset to 1; in all cases `best_streak := max best_streak current_streak`
and `last_entry_date :=` the inserted entry's date. -/
def updateStreakOnInsert (st : StreakState) (d : Nat) : StreakState :=
  let cur :=
    match st.last_entry_date with
    | none => 1
    | some last =>
      if d = last then st.current_streak
      else if d = last + 1 then st.current_streak + 1
      else 1
  { current_streak := cur, best_streak := max st.best_streak cur, last_entry_date := some d }

/-- C3: inserting an entry dated exactly one day after `last_entry_date`
increments `current_streak` by 1; inserting after a gap of two or more days
resets it to 1; in both cases `best_streak` becomes the maximum of the
previous `best_streak` and the new `current_streak`, and `last_entry_date`
becomes the inserted date. -/
theorem C3_streak_insert_update (st : StreakState) (last d : Nat)
    (hlast : st.last_entry_date = some last) :
    (d = last + 1 → (updateStreakOnInsert st d).current_streak = st.current_streak + 1) ∧
    (last + 2 ≤ d → (updateStreakOnInsert st d).current_streak = 1) ∧
    (updateStreakOnInsert st d).best_streak =
      max st.best_streak (updateStreakOnInsert st d).current_streak ∧
    (updateStreakOnInsert st d).last_entry_date = some d := by
  refine ⟨?_, ?_, ?_, ?_⟩
  · intro h
    subst h
    simp [updateStreakOnInsert, hlast]
  · intro h
    simp only [updateStreakOnInsert, hlast]
    rw [if_neg (by omega), if_neg (by omega)]
  · simp only [updateStreakOnInsert, hlast]
  · simp only [updateStreakOnInsert]

theorem C3_streak_insert_update_witness :
    (StreakState.last_entry_date ⟨3, 3, some 5⟩ = some 5) ∧
    (6 = 5 + 1 → (updateStreakOnInsert ⟨3, 3, some 5⟩ 6).current_streak = 3 + 1) :=
  ⟨rfl, (C3_streak_insert_update ⟨3, 3, some 5⟩ 5 6 rfl).1⟩

/-! ## Badge engine (`check_and_award_badges`, PL/pgSQL, migration
`20250615003029_polished_thunder.sql`)

The function is invoked per user (`target_user_id`) and touches only that
user's rows, so the embedding models a single user's slice of the database. -/

/-- A journal entry row as read by the badge engine: its content, mood, and
`DATE(created_at)` as a day number. -/
structure Entry where
  content : String
  mood : String
  day : Nat
deriving DecidableEq

/-- The profile columns read by `check_and_award_badges`. -/
structure BadgeProfile where
  current_streak : Int
  journaling_goal_frequency : Int
  subscription_status : String
  subscription_tier : String
  total_badges_earned : Nat
deriving DecidableEq

/-- The typed badge criteria (`badges.criteria` JSONB): one variant per
recognized `type` string, plus a variant for every other type, which the
`ELSE CONTINUE` arm of the SQL `CASE` skips. -/
inductive Criteria where
  | first_entry : Criteria
  | entry_count : Int → Criteria
  | streak : Int → Criteria
  | weekly_goal : Criteria
  | long_entry : Int → Criteria
  | mood_diversity : Int → Criteria
  | subscription : String → Criteria
  | unrecognized : String → Criteria
deriving DecidableEq

/-- A badge catalog row: its id and criteria (name, icon, rarity are not read
by the awarding logic). -/
structure Badge where
  id : Nat
  criteria : Criteria
deriving DecidableEq

/-- The per-user database state read and written by `check_and_award_badges`:
the user's journal entries, profile row, and earned `user_badges` rows. -/
structure UserState where
  entries : List Entry
  profile : BadgeProfile
  user_badges : List Nat
deriving DecidableEq

/-- The `CASE` arm conditions of `check_and_award_badges`, per criteria type.
`weekStart` is the week truncation `DATE_TRUNC(week, CURRENT_DATE)` as a day number; the
weekly-goal arm counts distinct entry days within `[weekStart, weekStart+7)`. -/
def badgeMatches (entries : List Entry) (p : BadgeProfile) (weekStart : Nat) :
    Criteria → Bool
  | .first_entry => !entries.isEmpty
  | .entry_count target => decide (target ≤ (entries.length : Int))
  | .streak target => decide (target ≤ p.current_streak)
  | .weekly_goal =>
    decide (p.journaling_goal_frequency ≤
      ((((entries.filter (fun e => decide (weekStart ≤ e.day) &&
          decide (e.day < weekStart + 7))).map (fun e => e.day)).dedup.length : Int)))
  | .long_entry minLength => entries.any (fun e => decide (minLength ≤ (e.content.length : Int)))
  | .mood_diversity target => decide (target ≤ (((entries.map (fun e => e.mood)).dedup.length : Int)))
  | .subscription tier =>
    decide (p.subscription_status = "premium") &&
      (decide (tier = p.subscription_tier) ||
        (decide (tier = "premium") &&
          (decide (p.subscription_tier = "premium") ||
            decide (p.subscription_tier = "premium_plus"))))
  | .unrecognized _ => false

/-- One iteration of the badge loop: skip when the user already has the badge,
otherwise insert a `user_badges` row when the criteria match. -/
def awardStep (weekStart : Nat) (st : UserState) (b : Badge) : UserState :=
  if b.id ∈ st.user_badges then st
  else if badgeMatches st.entries st.profile weekStart b.criteria then
    { st with user_badges := st.user_badges ++ [b.id] }
  else st

/-- Model of `check_and_award_badges`: loop over the badge catalog, then recompute
`total_badges_earned` as the count of the user's `user_badges` rows. -/
def check_and_award_badges (catalog : List Badge) (weekStart : Nat)
    (st : UserState) : UserState :=
  let st1 := catalog.foldl (awardStep weekStart) st
  { st1 with profile := { st1.profile with total_badges_earned := st1.user_badges.length } }

lemma badgeMatches_total_irrel (es : List Entry) (p : BadgeProfile) (w : Nat)
    (c : Criteria) (n : Nat) :
    badgeMatches es { p with total_badges_earned := n } w c = badgeMatches es p w c := by
  cases c <;> rfl

lemma awardStep_entries (w : Nat) (st : UserState) (b : Badge) :
    (awardStep w st b).entries = st.entries := by
  unfold awardStep; split_ifs <;> rfl

lemma awardStep_profile (w : Nat) (st : UserState) (b : Badge) :
    (awardStep w st b).profile = st.profile := by
  unfold awardStep; split_ifs <;> rfl

lemma foldl_award_entries (w : Nat) (bs : List Badge) :
    ∀ st : UserState, (bs.foldl (awardStep w) st).entries = st.entries := by
  induction bs with
  | nil => intro st; rfl
  | cons b bs ih => intro st; rw [List.foldl_cons, ih, awardStep_entries]

lemma foldl_award_profile (w : Nat) (bs : List Badge) :
    ∀ st : UserState, (bs.foldl (awardStep w) st).profile = st.profile := by
  induction bs with
  | nil => intro st; rfl
  | cons b bs ih => intro st; rw [List.foldl_cons, ih, awardStep_profile]

lemma awardStep_badges_extend (w : Nat) (st : UserState) (b : Badge) :
    ∃ l, (awardStep w st b).user_badges = st.user_badges ++ l := by
  unfold awardStep
  split_ifs
  · exact ⟨[], by simp⟩
  · exact ⟨[b.id], rfl⟩
  · exact ⟨[], by simp⟩

lemma foldl_award_extend (w : Nat) (bs : List Badge) :
    ∀ st : UserState, ∃ l, (bs.foldl (awardStep w) st).user_badges = st.user_badges ++ l := by
  induction bs with
  | nil => intro st; exact ⟨[], by simp⟩
  | cons b bs ih =>
    intro st
    obtain ⟨l1, h1⟩ := awardStep_badges_extend w st b
    obtain ⟨l2, h2⟩ := ih (awardStep w st b)
    exact ⟨l1 ++ l2, by rw [List.foldl_cons, h2, h1, List.append_assoc]⟩

lemma awardStep_nodup (w : Nat) (st : UserState) (b : Badge)
    (h : st.user_badges.Nodup) : (awardStep w st b).user_badges.Nodup := by
  unfold awardStep
  split_ifs with h1 h2
  · exact h
  · simp [List.nodup_append, h, h1]
  · exact h

lemma foldl_award_nodup (w : Nat) (bs : List Badge) :
    ∀ st : UserState, st.user_badges.Nodup → (bs.foldl (awardStep w) st).user_badges.Nodup := by
  induction bs with
  | nil => intro st h; exact h
  | cons b bs ih => intro st h; exact ih _ (awardStep_nodup w st b h)

lemma awardStep_skip (w : Nat) (st : UserState) (b : Badge)
    (h : b.id ∈ st.user_badges ∨ badgeMatches st.entries st.profile w b.criteria = false) :
    awardStep w st b = st := by
  unfold awardStep
  rcases h with h | h
  · rw [if_pos h]
  · simp [h]

lemma foldl_award_fixed (w : Nat) (bs : List Badge) :
    ∀ st : UserState,
      (∀ b ∈ bs, b.id ∈ st.user_badges ∨
        badgeMatches st.entries st.profile w b.criteria = false) →
      bs.foldl (awardStep w) st = st := by
  induction bs with
  | nil => intro st _; rfl
  | cons b bs ih =>
    intro st h
    rw [List.foldl_cons, awardStep_skip w st b (h b (by simp))]
    exact ih st (fun x hx => h x (by simp [hx]))

lemma foldl_award_saturates (w : Nat) (bs : List Badge) :
    ∀ st : UserState, ∀ b ∈ bs,
      b.id ∈ (bs.foldl (awardStep w) st).user_badges ∨
        badgeMatches st.entries st.profile w b.criteria = false := by
  induction bs with
  | nil => intro st b hb; simp at hb
  | cons hd tl ih =>
    intro st b hb
    rw [List.foldl_cons]
    rcases List.mem_cons.mp hb with rfl | htl
    · by_cases hmem : b.id ∈ st.user_badges
      · left
        obtain ⟨l1, h1⟩ := awardStep_badges_extend w st b
        obtain ⟨l2, h2⟩ := foldl_award_extend w tl (awardStep w st b)
        rw [h2, h1]
        simp [hmem]
      · by_cases hm : badgeMatches st.entries st.profile w b.criteria
        · left
          obtain ⟨l2, h2⟩ := foldl_award_extend w tl (awardStep w st b)
          rw [h2]
          have : b.id ∈ (awardStep w st b).user_badges := by
            unfold awardStep
            rw [if_neg hmem, if_pos hm]
            simp
          simp [this]
        · right
          simpa using hm
    · have := ih (awardStep w st hd) b htl
      rwa [awardStep_entries, awardStep_profile] at this

lemma userState_set_total (st : UserState) (n : Nat)
    (h : st.profile.total_badges_earned = n) :
    { st with profile := { st.profile with total_badges_earned := n } } = st := by
  cases st with
  | mk es p ub =>
    cases p with
    | mk a b c d e =>
      have he : e = n := h
      subst he
      rfl

/-- C4: the badge engine is idempotent and monotone: with no duplicate earned
records to start with, running it leaves at most one record per badge, a
second run with no state change in between returns the state unchanged, and
badges earned before the run are all still present afterwards (they are never
removed, whatever the criteria now evaluate to). -/
theorem C4_badge_engine_idempotent (catalog : List Badge) (w : Nat) (st : UserState)
    (hnodup : st.user_badges.Nodup) :
    check_and_award_badges catalog w (check_and_award_badges catalog w st) =
      check_and_award_badges catalog w st ∧
    (check_and_award_badges catalog w st).user_badges.Nodup ∧
    (∀ bid ∈ st.user_badges, bid ∈ (check_and_award_badges catalog w st).user_badges) := by
  set st1 := catalog.foldl (awardStep w) st with hst1
  have hentries : st1.entries = st.entries := foldl_award_entries w catalog st
  have hprofile : st1.profile = st.profile := foldl_award_profile w catalog st
  have hres : check_and_award_badges catalog w st =
      { st1 with profile := { st1.profile with
          total_badges_earned := st1.user_badges.length } } := rfl
  refine ⟨?_, ?_, ?_⟩
  · set r1 := check_and_award_badges catalog w st with hr1
    have hr1e : r1.entries = st.entries := by rw [hres]; exact hentries
    have hr1p : r1.profile = { st.profile with
        total_badges_earned := st1.user_badges.length } := by
      rw [hres]; simp [hprofile]
    have hr1b : r1.user_badges = st1.user_badges := by rw [hres]
    have hsat : ∀ b ∈ catalog, b.id ∈ r1.user_badges ∨
        badgeMatches r1.entries r1.profile w b.criteria = false := by
      intro b hb
      rcases foldl_award_saturates w catalog st b hb with h | h
      · left; rw [hr1b]; exact h
      · right
        rw [hr1e, hr1p, badgeMatches_total_irrel]
        exact h
    have hfix : catalog.foldl (awardStep w) r1 = r1 := foldl_award_fixed w catalog r1 hsat
    show check_and_award_badges catalog w r1 = r1
    unfold check_and_award_badges
    rw [hfix]
    have htot : r1.profile.total_badges_earned = r1.user_badges.length := by
      rw [hr1p, hr1b]
    exact userState_set_total r1 _ htot
  · rw [hres]
    exact foldl_award_nodup w catalog st hnodup
  · intro bid hbid
    rw [hres]
    obtain ⟨l, hl⟩ := foldl_award_extend w catalog st
    show bid ∈ st1.user_badges
    rw [hst1, hl]
    simp [hbid]

theorem C4_badge_engine_idempotent_witness :
    ([7] : List Nat).Nodup ∧
    (∀ bid ∈ [7],
      bid ∈ (check_and_award_badges [⟨7, .first_entry⟩, ⟨8, .streak 3⟩] 0
        ⟨[⟨"hi", "good", 0⟩], ⟨5, 3, "free", "free", 1⟩, [7]⟩).user_badges) :=
  ⟨by decide,
    (C4_badge_engine_idempotent [⟨7, .first_entry⟩, ⟨8, .streak 3⟩] 0
      ⟨[⟨"hi", "good", 0⟩], ⟨5, 3, "free", "free", 1⟩, [7]⟩ (by decide)).2.2⟩

/-- C5: a badge whose criteria type is `subscription` matches exactly when
`subscription_status` equals `"premium"` and either the criteria tier equals
the tier of the profile, or the criteria tier is `"premium"` and that tier is
`premium` or `premium_plus`; and when not yet earned, the engine awards it
exactly under that condition. -/
theorem C5_subscription_badge (st : UserState) (w : Nat) (tier : String) (bid : Nat)
    (hnew : bid ∉ st.user_badges) :
    (badgeMatches st.entries st.profile w (.subscription tier) = true ↔
      (st.profile.subscription_status = "premium" ∧
        (tier = st.profile.subscription_tier ∨
          (tier = "premium" ∧ (st.profile.subscription_tier = "premium" ∨
            st.profile.subscription_tier = "premium_plus"))))) ∧
    (bid ∈ (check_and_award_badges [⟨bid, .subscription tier⟩] w st).user_badges ↔
      (st.profile.subscription_status = "premium" ∧
        (tier = st.profile.subscription_tier ∨
          (tier = "premium" ∧ (st.profile.subscription_tier = "premium" ∨
            st.profile.subscription_tier = "premium_plus"))))) := by
  have hmatch : badgeMatches st.entries st.profile w (.subscription tier) = true ↔
      (st.profile.subscription_status = "premium" ∧
        (tier = st.profile.subscription_tier ∨
          (tier = "premium" ∧ (st.profile.subscription_tier = "premium" ∨
            st.profile.subscription_tier = "premium_plus")))) := by
    simp [badgeMatches]
  refine ⟨hmatch, ?_⟩
  have hub : (check_and_award_badges [⟨bid, Criteria.subscription tier⟩] w st).user_badges =
      (awardStep w st ⟨bid, Criteria.subscription tier⟩).user_badges := rfl
  rw [← hmatch, hub]
  unfold awardStep
  rw [if_neg hnew]
  by_cases hm : badgeMatches st.entries st.profile w (Criteria.subscription tier) = true
  · rw [if_pos hm]
    simp [hm]
  · rw [if_neg hm]
    simp [hnew, hm]

theorem C5_subscription_badge_witness :
    ((1 : Nat) ∉ ([] : List Nat)) ∧
    (badgeMatches ([] : List Entry) ⟨0, 3, "premium", "premium", 0⟩ 0
        (.subscription "premium") = true ↔
      (BadgeProfile.subscription_status ⟨0, 3, "premium", "premium", 0⟩ = "premium" ∧
        ("premium" = BadgeProfile.subscription_tier ⟨0, 3, "premium", "premium", 0⟩ ∨
          ("premium" = "premium" ∧
            (BadgeProfile.subscription_tier ⟨0, 3, "premium", "premium", 0⟩ = "premium" ∨
              BadgeProfile.subscription_tier ⟨0, 3, "premium", "premium", 0⟩ =
                "premium_plus"))))) :=
  ⟨by decide,
    (C5_subscription_badge ⟨[], ⟨0, 3, "premium", "premium", 0⟩, []⟩ 0 "premium" 1
      (by decide)).1⟩

end Zensai
